import Mathlib

/-!
SafeDose: dosage calculator, safety checker and history store

A shallow embedding of the class `SistemaSafeDose` of `src/script.js`.

Modelling conventions.

* A JavaScript number is a `JSNum`: `NaN`, one of the two infinities, or a
  finite value carried as an exact rational.  The special values follow
  IEEE 754; binary64 rounding of finite results and the sign of zero are not
  represented.
* An argument that the source tests for presence (`!unidade`, `forma ? ..`)
  is an `Option String`; `none` is the absent (`undefined`) argument.
* `this.conversoes` and `this.limitesSeguranca` are object literals, so a
  property read also finds the members inherited from `Object.prototype`.
  After `toLowerCase()` only the all-lower-case inherited names
  `constructor` and `__proto__` can be hit.
-/

namespace SafeDose

/-! ## JavaScript numbers -/

/-- A JavaScript number: not-a-number, a signed infinity, or a finite value. -/
inductive JSNum where
  | nan
  | inf (negativo : Bool)
  | fin (q : ℚ)
deriving DecidableEq

namespace JSNum

/-- The global `isFinite` on a number. -/
def isFinite : JSNum → Bool
  | fin _ => true
  | _ => false

/-- The `*` operator on numbers. -/
def mul : JSNum → JSNum → JSNum
  | nan, _ => nan
  | _, nan => nan
  | inf a, inf b => inf (xor a b)
  | inf a, fin q => if q = 0 then nan else inf (xor a (decide (q < 0)))
  | fin q, inf b => if q = 0 then nan else inf (xor (decide (q < 0)) b)
  | fin p, fin q => fin (p * q)

/-- The `/` operator on numbers (a zero divisor is taken as `+0`). -/
def div : JSNum → JSNum → JSNum
  | nan, _ => nan
  | _, nan => nan
  | inf _, inf _ => nan
  | inf a, fin q => inf (xor a (decide (q < 0)))
  | fin _, inf _ => fin 0
  | fin p, fin q =>
    if q = 0 then (if p = 0 then nan else inf (decide (p < 0))) else fin (p / q)

/-- The `<` operator on numbers; every comparison with `NaN` is false. -/
def lt : JSNum → JSNum → Bool
  | nan, _ => false
  | _, nan => false
  | inf a, inf b => a && !b
  | inf a, fin _ => a
  | fin _, inf b => !b
  | fin p, fin q => decide (p < q)

/-- The `<=` operator on numbers; every comparison with `NaN` is false. -/
def le : JSNum → JSNum → Bool
  | nan, _ => false
  | _, nan => false
  | inf a, inf b => a || !b
  | inf a, fin _ => a
  | fin _, inf b => !b
  | fin p, fin q => decide (p ≤ q)

/-- The `>` operator on numbers. -/
def gt (x y : JSNum) : Bool := lt y x

end JSNum

/-! ## Strings -/

/-- `String.prototype.toLowerCase`, on the ASCII letters.  Every key the
program compares a lower-cased string with (`g`, `mg`, `mcg`, `ml`, `l`,
`comprimido`, `comprimidos`, `capsula`, the drug names, `constructor`,
`__proto__`) is made of characters that only an ASCII capital lower-cases
to, so equality with these keys is decided as in JavaScript; the liquid
forms of line 56, some of them with accents, lead to the text of the default
branch. -/
def toLowerCase (s : String) : String := ⟨s.data.map Char.toLower⟩

/-! ## Unit conversion -/

/-- What the property read `this.conversoes[key]` evaluates to. -/
inductive Propriedade where
  /-- an own property of the literal: a conversion factor -/
  | fator (q : ℚ)
  /-- a member inherited from `Object.prototype`: a function or an object -/
  | herdado
  /-- no such property: `undefined` -/
  | indefinido
deriving DecidableEq

/-- The names that an object literal inherits from `Object.prototype` and
that are already in lower case. -/
def nomeHerdado (key : String) : Bool :=
  key == "constructor" || key == "__proto__"

/-- The read `this.conversoes[key]` (lines 9-15). -/
def conversoes (key : String) : Propriedade :=
  if key = "g" then .fator 1000
  else if key = "mg" then .fator 1
  else if key = "mcg" then .fator (1 / 1000)
  else if key = "ml" then .fator 1
  else if key = "l" then .fator 1000
  else if nomeHerdado key then .herdado
  else .indefinido

/-- Truthiness of a property value. -/
def Propriedade.truthy : Propriedade → Bool
  | .fator q => decide (q ≠ 0)
  | .herdado => true
  | .indefinido => false

/-- Conversion `ToNumber` of a property value used as an operand of `*`:
a function or a plain object converts to `NaN`. -/
def Propriedade.toNumber : Propriedade → JSNum
  | .fator q => .fin q
  | .herdado => .nan
  | .indefinido => .nan

/-- The operand `(this.conversoes[key] || 1)` as a number. -/
def fatorOuUm (key : String) : JSNum :=
  if (conversoes key).truthy then (conversoes key).toNumber else .fin 1

/-- The method `converterParaMg(valor, unidade)` (lines 30-34). -/
def converterParaMg (valor : JSNum) (unidade : Option String) : JSNum :=
  match unidade with
  | none => valor
  | some u =>
    if u = "" then valor
    else valor.mul (fatorOuUm (toLowerCase u))

/-! ## Dosage calculator -/

/-- An argument interpolated in a template literal: the absent argument
prints as `undefined`. -/
def interpolar : Option String → String
  | some s => s
  | none => "undefined"

/-- The integer `n` for which `n / 100 - x` is as close to zero as possible,
the larger one when there are two (step 11.a of `Number.prototype.toFixed`),
for `x ≥ 0`. -/
def centesimos (x : ℚ) : ℕ := (⌊x * 100 + 1 / 2⌋).toNat

/-- The call `x.toFixed(2)`.  A non-finite number prints by name; a finite one
of magnitude at least `10^21` prints as `Number::toString` does, in the
exponent form whose digits depend on the binary64 value and are supplied by
`notacaoExp`; every other number prints its sign, the integer part of
`n / 100` and the two digits of `n % 100`. -/
def toFixed2 (notacaoExp : ℚ → String) : JSNum → String
  | .nan => "NaN"
  | .inf false => "Infinity"
  | .inf true => "-Infinity"
  | .fin q =>
    let s := if q < 0 then "-" else ""
    let x := |q|
    if (10 : ℚ) ^ 21 ≤ x then s ++ notacaoExp x
    else
      let n := centesimos x
      s ++ (Nat.repr (n / 100) ++ "." ++
        String.mk [Nat.digitChar (n % 100 / 10), Nat.digitChar (n % 10)])

/-- The object returned by `calcularDosagem`; the failed result has neither
`quantidade` nor `prescricaoMg`. -/
structure Resultado where
  resultado : String
  sucesso : Bool
  quantidade : Option JSNum
  prescricaoMg : Option JSNum
deriving DecidableEq

/-- The failed result of line 45. -/
def erroMassaVolume : Resultado :=
  { resultado := "Erro: Massa ou volume inválido (deve ser maior que zero).",
    sucesso := false, quantidade := none, prescricaoMg := none }

/-- The key `volKey` of line 41. -/
def chaveVolume : Option String → String
  | none => "ml"
  | some u => if u = "" then "ml" else toLowerCase u

/-- The value `volumeDisponivelMl` of line 42. -/
def converterVolume (disponivelVolume : JSNum) (disponivelVolumeUnidade : Option String) :
    JSNum :=
  let volKey := chaveVolume disponivelVolumeUnidade
  if (conversoes volKey).truthy then disponivelVolume.mul (conversoes volKey).toNumber
  else disponivelVolume

/-- The guard of line 44. -/
def massaOuVolumeInvalido (massaDisponivelMg volumeDisponivelMl : JSNum) : Bool :=
  !massaDisponivelMg.isFinite || !volumeDisponivelMl.isFinite ||
    massaDisponivelMg.le (.fin 0) || volumeDisponivelMl.le (.fin 0)

/-- The string `formaLower` of line 51. -/
def formaMinuscula : Option String → String
  | none => ""
  | some f => if f = "" then "" else toLowerCase f

/-- The test of line 54. -/
def formaSolida (formaLower : String) : Bool :=
  formaLower == "comprimido" || formaLower == "comprimidos" || formaLower == "capsula"

/-- The test of line 56. -/
def formaLiquida (formaLower : String) : Bool :=
  formaLower == "líquido" || formaLower == "liquido" || formaLower == "injeção" ||
    formaLower == "injeccao" || formaLower == "solução"

/-- The method `calcularDosagem` (lines 37-67).  With numbers for the three
values and strings (or nothing) for the other arguments no statement of the
`try` block throws, so the `catch` branch is not reached. -/
def calcularDosagem (notacaoExp : ℚ → String)
    (prescricaoValor : JSNum) (prescricaoUnidade : Option String)
    (disponivelMassa : JSNum) (disponivelMassaUnidade : Option String)
    (disponivelVolume : JSNum) (disponivelVolumeUnidade : Option String)
    (forma medicamento : Option String) : Resultado :=
  let prescricaoMg := converterParaMg prescricaoValor prescricaoUnidade
  let massaDisponivelMg := converterParaMg disponivelMassa disponivelMassaUnidade
  let volumeDisponivelMl := converterVolume disponivelVolume disponivelVolumeUnidade
  if massaOuVolumeInvalido massaDisponivelMg volumeDisponivelMl then erroMassaVolume
  else
    let concentracao := massaDisponivelMg.div volumeDisponivelMl
    let quantidade := prescricaoMg.div concentracao
    let formaLower := formaMinuscula forma
    let resultadoTexto :=
      if formaSolida formaLower then
        "Administrar " ++ toFixed2 notacaoExp quantidade ++ " " ++ interpolar forma
      else if formaLiquida formaLower then
        "Administrar " ++ toFixed2 notacaoExp quantidade ++ " mL de " ++ interpolar medicamento
      else
        "Administrar " ++ toFixed2 notacaoExp quantidade ++ " mL de " ++ interpolar medicamento
    { resultado := resultadoTexto, sucesso := true,
      quantidade := some quantidade, prescricaoMg := some prescricaoMg }

/-! ## Safety checker -/

/-- What the property read `this.limitesSeguranca[key]` evaluates to when it
is truthy: the properties `max_dose`, `min_dose` and `unidade` of the object
found, each absent (`undefined`) or present. -/
structure Limite where
  max_dose : Option ℕ
  min_dose : Option ℕ
  unidade : Option String
deriving DecidableEq

/-- The read `this.limitesSeguranca[key]` (lines 22-26); an inherited member
of `Object.prototype` is an object with none of the three properties. -/
def limitesSeguranca (key : String) : Option Limite :=
  if key = "dipirona" then some ⟨some 4000, some 500, some "mg"⟩
  else if key = "paracetamol" then some ⟨some 4000, some 500, some "mg"⟩
  else if key = "morfina" then some ⟨some 30, none, some "mg"⟩
  else if nomeHerdado key then some ⟨none, none, none⟩
  else none

/-- The object returned by `verificarSeguranca`. -/
structure Alerta where
  mensagem : String
  tipo : String
deriving DecidableEq

/-- The test `limite.max_dose && prescricaoMg > limite.max_dose` of line 74. -/
def excedeMaximo (limite : Limite) (prescricaoMg : JSNum) : Bool :=
  match limite.max_dose with
  | some m => decide (m ≠ 0) && prescricaoMg.gt (.fin m)
  | none => false

/-- The test `limite.min_dose && prescricaoMg < limite.min_dose` of line 77. -/
def abaixoMinimo (limite : Limite) (prescricaoMg : JSNum) : Bool :=
  match limite.min_dose with
  | some m => decide (m ≠ 0) && prescricaoMg.lt (.fin m)
  | none => false

/-- A bound interpolated in a template literal. -/
def interpolarDose : Option ℕ → String
  | some m => Nat.repr m
  | none => "undefined"

/-- The result of line 81. -/
def dentroDosLimites : Alerta :=
  { mensagem := "Dosagem dentro dos limites seguros.", tipo := "success" }

/-- Lines 73-81 of `verificarSeguranca`, on the value `limite` read from the
table. -/
def verificarLimite (limite : Option Limite) (prescricaoMg : JSNum) : Alerta :=
  match limite with
  | some limite =>
    if excedeMaximo limite prescricaoMg then
      { mensagem := "ALERTA: A dosagem prescrita excede " ++ interpolarDose limite.max_dose
          ++ " " ++ interpolar limite.unidade ++ ".",
        tipo := "warning" }
    else if abaixoMinimo limite prescricaoMg then
      { mensagem := "ATENÇÃO: A dosagem prescrita está abaixo de "
          ++ interpolarDose limite.min_dose ++ " " ++ interpolar limite.unidade ++ ".",
        tipo := "warning" }
    else dentroDosLimites
  | none => dentroDosLimites

/-- The method `verificarSeguranca` (lines 70-82). -/
def verificarSeguranca (prescricaoMg : JSNum) (medicamento : Option String) : Alerta :=
  match medicamento with
  | none => { mensagem := "Nenhum medicamento selecionado.", tipo := "warning" }
  | some m =>
    if m = "" then { mensagem := "Nenhum medicamento selecionado.", tipo := "warning" }
    else verificarLimite (limitesSeguranca (toLowerCase m)) prescricaoMg

/-! ## History store -/

/-- A value held by a field of a history entry: what the caller passed to
`adicionarHistorico`, or what `JSON.parse` read back.  A property that is
missing reads as `undefined`, so both are `indefinido`. -/
inductive Valor where
  | indefinido
  | nulo
  | booleano (b : Bool)
  | numero (x : JSNum)
  | texto (s : String)
deriving DecidableEq

/-- The ten arguments of `adicionarHistorico`, in the order of line 85. -/
structure Campos where
  medicamento : Valor
  prescricaoValor : Valor
  prescricaoUnidade : Valor
  disponivelMassa : Valor
  disponivelMassaUnidade : Valor
  disponivelVolume : Valor
  disponivelVolumeUnidade : Valor
  forma : Valor
  resultado : Valor
  alerta : Valor
deriving DecidableEq

/-- An entry of `this.historico` (lines 86-98): the integer `id` and the
ten fields. -/
structure Registro where
  id : ℤ
  campos : Campos
deriving DecidableEq

/-- The value `JSON.parse(JSON.stringify(v))` for a field value: a number
that is not finite is written as `null`; a property holding `undefined` is
left out and reads back as `undefined`. -/
def Valor.json : Valor → Valor
  | .numero x => if x.isFinite then .numero x else .nulo
  | v => v

/-- The ten fields of an entry after `JSON.stringify` and `JSON.parse`. -/
def Campos.json (c : Campos) : Campos :=
  { medicamento := c.medicamento.json
    prescricaoValor := c.prescricaoValor.json
    prescricaoUnidade := c.prescricaoUnidade.json
    disponivelMassa := c.disponivelMassa.json
    disponivelMassaUnidade := c.disponivelMassaUnidade.json
    disponivelVolume := c.disponivelVolume.json
    disponivelVolumeUnidade := c.disponivelVolumeUnidade.json
    forma := c.forma.json
    resultado := c.resultado.json
    alerta := c.alerta.json }

/-- An entry after `JSON.stringify` and `JSON.parse`; an integer `id` is
written and read back exactly. -/
def Registro.json (r : Registro) : Registro :=
  { id := r.id, campos := r.campos.json }

/-- A string held by `localStorage`, told apart by what the constructor can
observe of it: the empty string (the only falsy string), the JSON text of an
array of entries (identified with the array that `JSON.parse` returns for
it), or any other non-empty string. -/
inductive Item where
  | vazio
  | json (h : List Registro)
  | outro
deriving DecidableEq

/-- The part of `localStorage` the class reads and writes: `getItem` returns
`null` (`none`) for a key that is not present. -/
abbrev LocalStorage := String → Option Item

/-- The call `localStorage.getItem(key)`. -/
def getItem (ls : LocalStorage) (key : String) : Option Item := ls key

/-- The call `localStorage.setItem(key, value)`. -/
def setItem (ls : LocalStorage) (key : String) (value : Item) : LocalStorage :=
  fun k => if k = key then some value else ls k

/-- Truthiness of the result of `getItem`: `null` and the empty string are
falsy, every other string is truthy. -/
def itemTruthy : Option Item → Bool
  | none => false
  | some .vazio => false
  | some (.json _) => true
  | some .outro => true

/-- The operator `a || b` on two results of `getItem`. -/
def ou (a b : Option Item) : Option Item := if itemTruthy a then a else b

/-- The call `JSON.stringify(this.historico)`. -/
def jsonStringify (historico : List Registro) : Item :=
  .json (historico.map Registro.json)

/-- The call `JSON.parse(text)` on a truthy string; `none` when the call
throws or returns something that is not an array of entries. -/
def jsonParse : Item → Option (List Registro)
  | .json h => some h
  | .vazio => none
  | .outro => none

/-- The history part of the constructor (lines 18-19): the value given to
`this.historico`, `none` when `JSON.parse` gives no array of entries. -/
def carregarHistorico (ls : LocalStorage) : Option (List Registro) :=
  let historicoSalvo := ou (getItem ls "historicoDosagens") (getItem ls "dosageHistory")
  if itemTruthy historicoSalvo then historicoSalvo.bind jsonParse else some []

/-- The state the history methods act on: the field `this.historico` and the
content of `localStorage`. -/
structure Estado where
  historico : List Registro
  armazenamento : LocalStorage

/-- The method `salvarHistorico` (lines 107-109). -/
def salvarHistorico (e : Estado) : Estado :=
  { e with armazenamento :=
      setItem e.armazenamento "historicoDosagens" (jsonStringify e.historico) }

/-- The method `adicionarHistorico` (lines 85-100); `agora` is the value
returned by `Date.now()`. -/
def adicionarHistorico (agora : ℤ) (campos : Campos) (e : Estado) : Estado :=
  salvarHistorico { e with historico := { id := agora, campos := campos } :: e.historico }

/-- The method `removerHistorico` (lines 102-105). -/
def removerHistorico (id : ℤ) (e : Estado) : Estado :=
  salvarHistorico { e with historico := e.historico.filter (fun item => item.id ≠ id) }

/-- The method `obterHistorico` (lines 111-113). -/
def obterHistorico (e : Estado) : List Registro := e.historico

/-- A mutation of the store: a call of `adicionarHistorico` at a given clock
reading, or a call of `removerHistorico`. -/
inductive Operacao where
  | adicionar (agora : ℤ) (campos : Campos)
  | remover (id : ℤ)

/-- Runs one mutation. -/
def executar (e : Estado) : Operacao → Estado
  | .adicionar agora campos => adicionarHistorico agora campos e
  | .remover id => removerHistorico id e

/-- Runs a finite sequence of mutations, first to last. -/
def executarTodas (e : Estado) (ops : List Operacao) : Estado :=
  ops.foldl executar e

/-! ## Reference definitions, written from the specification -/

/-- The UnitConversionTable of the specification: gram 1000, milligram 1,
microgram 0.001, liter 1000, milliliter 1, and factor 1 for every other
symbol. -/
def fatorSpec (simbolo : String) : ℚ :=
  if simbolo = "g" then 1000
  else if simbolo = "mg" then 1
  else if simbolo = "mcg" then 1 / 1000
  else if simbolo = "l" then 1000
  else if simbolo = "ml" then 1
  else 1

/-- The contract `convertToBaseUnit` of section 4.1 of the specification. -/
def convertToBaseUnitSpec (value : JSNum) (unit : Option String) : JSNum :=
  match unit with
  | none => value
  | some u => if u = "" then value else value.mul (.fin (fatorSpec (toLowerCase u)))

/-- An entry of the SafetyThreshold table of section 3: an optional
maximum, an optional minimum, and the unit of both. -/
structure SafetyThreshold where
  max : Option ℕ
  min : Option ℕ
  unit : String
deriving DecidableEq

/-- The SafetyThreshold table of section 3, by lower-case drug name. -/
def safetyThresholdSpec (drug : String) : Option SafetyThreshold :=
  if drug = "dipirona" then some ⟨some 4000, some 500, "mg"⟩
  else if drug = "paracetamol" then some ⟨some 4000, some 500, "mg"⟩
  else if drug = "morfina" then some ⟨some 30, none, "mg"⟩
  else none

/-- The outcomes of the safety check of section 4.3. -/
inductive Classificacao where
  | semMedicamento
  | acimaDoMaximo (max : ℕ) (unit : String)
  | abaixoDoMinimo (min : ℕ) (unit : String)
  | dentroDosLimites
deriving DecidableEq

/-- The minimum check of section 4.3, reached when the maximum check did
not report. -/
def checkMinimumSpec (dose : JSNum) (e : SafetyThreshold) : Classificacao :=
  match e.min with
  | some mn => if dose.lt (.fin mn) then .abaixoDoMinimo mn e.unit else .dentroDosLimites
  | none => .dentroDosLimites

/-- The contract `checkSafety` of section 4.3: no drug, then the maximum
check, then the minimum check, else within limits. -/
def checkSafetySpec (dose : JSNum) (drugName : Option String) : Classificacao :=
  match drugName with
  | none => .semMedicamento
  | some n =>
    if n = "" then .semMedicamento
    else
      match safetyThresholdSpec (toLowerCase n) with
      | none => .dentroDosLimites
      | some e =>
        match e.max with
        | some mx => if dose.gt (.fin mx) then .acimaDoMaximo mx e.unit else checkMinimumSpec dose e
        | none => checkMinimumSpec dose e

/-- The message and the severity the source gives to each outcome. -/
def alertaSpec : Classificacao → Alerta
  | .semMedicamento => { mensagem := "Nenhum medicamento selecionado.", tipo := "warning" }
  | .acimaDoMaximo mx u =>
    { mensagem := "ALERTA: A dosagem prescrita excede " ++ Nat.repr mx ++ " " ++ u ++ ".",
      tipo := "warning" }
  | .abaixoDoMinimo mn u =>
    { mensagem := "ATENÇÃO: A dosagem prescrita está abaixo de " ++ Nat.repr mn ++ " " ++ u
        ++ ".",
      tipo := "warning" }
  | .dentroDosLimites => { mensagem := "Dosagem dentro dos limites seguros.", tipo := "success" }

/-- The text of section 4.2 for the instruction, given the rendered
quantity: the tablet/capsule phrasing for the three solid forms and the mL
phrasing for every other form. -/
def instrucaoSpec (quantidade : String) (forma medicamento : Option String) : String :=
  if formaSolida (formaMinuscula forma) then
    "Administrar " ++ quantidade ++ " " ++ interpolar forma
  else
    "Administrar " ++ quantidade ++ " mL de " ++ interpolar medicamento

/-- Drops a leading minus sign. -/
def semSinal : List Char → List Char
  | '-' :: t => t
  | cs => cs

/-- A decimal numeral with exactly two fractional digits: an optional minus
sign, one or more digits, a point, two digits. -/
def duasCasas (s : String) : Bool :=
  let cs := semSinal s.data
  !(cs.takeWhile Char.isDigit).isEmpty &&
    match cs.dropWhile Char.isDigit with
    | [p, d1, d2] => p == '.' && d1.isDigit && d2.isDigit
    | _ => false

/-- A rendering of the magnitudes from `10^21` on, for the evaluations in
which that branch of `toFixed` is not taken. -/
def semNotacaoExp : ℚ → String := fun _ => "1e+21"

/-- The ids of a sequence of entries, in order. -/
def ids (h : List Registro) : List ℤ := h.map (fun item => item.id)

/-- Every `adicionarHistorico` of the sequence reads from the clock a value
that is not the id of an entry held at that moment. -/
def relogioNovo : List Registro → List Operacao → Bool
  | _, [] => true
  | h, .adicionar agora campos :: ops =>
    decide (agora ∉ ids h) && relogioNovo ({ id := agora, campos := campos } :: h) ops
  | h, .remover id :: ops => relogioNovo (h.filter (fun item => item.id ≠ id)) ops

/-- A field value that JSON can write: anything but `NaN` and the
infinities. -/
def Valor.representavel : Valor → Bool
  | .numero x => x.isFinite
  | _ => true

/-- All ten fields can be written by JSON. -/
def Campos.representavel (c : Campos) : Bool :=
  c.medicamento.representavel && c.prescricaoValor.representavel &&
  c.prescricaoUnidade.representavel && c.disponivelMassa.representavel &&
  c.disponivelMassaUnidade.representavel && c.disponivelVolume.representavel &&
  c.disponivelVolumeUnidade.representavel && c.forma.representavel &&
  c.resultado.representavel && c.alerta.representavel

/-- The storage with no key. -/
def armazenamentoVazio : LocalStorage := fun _ => none

/-- The empty store over the empty storage. -/
def estadoVazio : Estado := { historico := [], armazenamento := armazenamentoVazio }

/-- The fields of a sample calculation: 500 mg prescribed, 1000 mg in 10 mL. -/
def camposExemplo : Campos :=
  { medicamento := .texto "dipirona"
    prescricaoValor := .numero (.fin 500)
    prescricaoUnidade := .texto "mg"
    disponivelMassa := .numero (.fin 1000)
    disponivelMassaUnidade := .texto "mg"
    disponivelVolume := .numero (.fin 10)
    disponivelVolumeUnidade := .texto "ml"
    forma := .texto "comprimido"
    resultado := .texto "Administrar 5.00 comprimido"
    alerta := .texto "Dosagem dentro dos limites seguros." }

/-- The fields of a calculation whose prescribed value is `Infinity`. -/
def camposInfinito : Campos :=
  { camposExemplo with
    prescricaoValor := .numero (.inf false)
    resultado := .texto "Administrar Infinity comprimido" }

/-- The fields of `camposInfinito` as JSON writes them. -/
def camposInfinitoLido : Campos :=
  { camposExemplo with
    prescricaoValor := .nulo
    resultado := .texto "Administrar Infinity comprimido" }

/-- A storage whose current key holds the empty string and whose legacy key
holds one entry. -/
def armazenamentoLegado : LocalStorage :=
  fun k =>
    if k = "historicoDosagens" then some .vazio
    else if k = "dosageHistory" then some (.json [{ id := 7, campos := camposExemplo }])
    else none

/-! ## Lemmas on numbers and strings -/

theorem JSNum.mul_fin_one (x : JSNum) : x.mul (.fin 1) = x := by
  cases x with
  | nan => rfl
  | inf a => cases a <;> simp [JSNum.mul]
  | fin q => simp [JSNum.mul]

theorem char_toLower_idem (c : Char) : c.toLower.toLower = c.toLower := by
  by_cases h : c.toNat ≥ 65 ∧ c.toNat ≤ 90
  · have hc : c = Char.ofNat c.toNat := (Char.ofNat_toNat c).symm
    obtain ⟨h1, h2⟩ := h
    generalize c.toNat = n at *
    subst hc
    interval_cases n <;> rfl
  · have : c.toLower = c := by
      unfold Char.toLower
      simp only [h, if_false]
    rw [this, this]

theorem toLowerCase_idem (s : String) : toLowerCase (toLowerCase s) = toLowerCase s := by
  simp only [toLowerCase, List.map_map]
  congr 1
  apply List.map_congr_left
  intro c _
  exact char_toLower_idem c

theorem toLowerCase_eq_empty (s : String) : toLowerCase s = "" ↔ s = "" := by
  cases s with
  | mk cs =>
    cases cs with
    | nil => simp [toLowerCase]
    | cons c t =>
      constructor
      · intro h
        have := congrArg String.data h
        simp [toLowerCase] at this
      · intro h
        have := congrArg String.data h
        simp at this

/-! ## Unit conversion: theorems -/

theorem fatorOuUm_eq_spec (key : String) (h : nomeHerdado key = false) :
    fatorOuUm key = .fin (fatorSpec key) := by
  unfold fatorOuUm conversoes fatorSpec
  rw [h]
  by_cases h1 : key = "g"
  · subst h1; simp [Propriedade.truthy, Propriedade.toNumber]
  by_cases h2 : key = "mg"
  · subst h2; simp [Propriedade.truthy, Propriedade.toNumber]
  by_cases h3 : key = "mcg"
  · subst h3; simp [Propriedade.truthy, Propriedade.toNumber]
  by_cases h4 : key = "ml"
  · subst h4; simp [Propriedade.truthy, Propriedade.toNumber]
  by_cases h5 : key = "l"
  · subst h5; simp [Propriedade.truthy, Propriedade.toNumber]
  simp [h1, h2, h3, h4, h5, Propriedade.truthy]

/-- Outside the two inherited names the method agrees with the contract of
the specification, for every value and every unit. -/
theorem converterParaMg_eq_spec (valor : JSNum) (unidade : Option String)
    (h : ∀ u, unidade = some u → nomeHerdado (toLowerCase u) = false) :
    converterParaMg valor unidade = convertToBaseUnitSpec valor unidade := by
  cases unidade with
  | none => rfl
  | some u =>
    unfold converterParaMg convertToBaseUnitSpec
    by_cases hu : u = ""
    · simp [hu]
    · simp only [hu, if_false]
      rw [fatorOuUm_eq_spec _ (h u rfl)]

/-- On a unit whose lower-case form is an inherited name the method returns
`NaN`, whatever the value. -/
theorem converterParaMg_herdado (valor : JSNum) (u : String)
    (h : nomeHerdado (toLowerCase u) = true) :
    converterParaMg valor (some u) = .nan := by
  have hu : u ≠ "" := by
    intro he
    subst he
    exact absurd h (by decide)
  have hk : conversoes (toLowerCase u) = .herdado := by
    simp only [nomeHerdado, Bool.or_eq_true, beq_iff_eq] at h
    rcases h with h | h <;> rw [h] <;> decide
  simp only [converterParaMg, hu, if_false, fatorOuUm, hk, Propriedade.truthy,
    Propriedade.toNumber, if_true]
  cases valor <;> rfl

theorem converterParaMg_herdado_witness :
    converterParaMg (.fin 5) (some "__PROTO__") = .nan :=
  converterParaMg_herdado (.fin 5) "__PROTO__" (by decide)

/-- The look-up of the method is case-insensitive: a unit and its lower-case
form convert alike. -/
theorem converterParaMg_toLowerCase (valor : JSNum) (u : String) :
    converterParaMg valor (some u) = converterParaMg valor (some (toLowerCase u)) := by
  unfold converterParaMg
  by_cases hu : u = ""
  · subst hu; rfl
  · have hl : toLowerCase u ≠ "" := fun hl => hu ((toLowerCase_eq_empty u).mp hl)
    simp only [hu, hl, if_false, toLowerCase_idem]

/-- The conversions of one unit of each mass symbol, and of an unknown symbol. -/
theorem converterParaMg_exemplos (x : JSNum) :
    converterParaMg (.fin 1) (some "g") = .fin 1000 ∧
    converterParaMg (.fin 1) (some "mg") = .fin 1 ∧
    converterParaMg (.fin 1) (some "mcg") = .fin (1 / 1000) ∧
    converterParaMg x (some "unknown") = x ∧
    converterParaMg x none = x ∧ converterParaMg x (some "") = x := by
  refine ⟨?_, ?_, ?_, ?_, rfl, rfl⟩
  · simp [converterParaMg, fatorOuUm, conversoes, toLowerCase, Propriedade.truthy,
      Propriedade.toNumber, JSNum.mul]
  · simp [converterParaMg, fatorOuUm, conversoes, toLowerCase, Propriedade.truthy,
      Propriedade.toNumber, JSNum.mul]
  · simp [converterParaMg, fatorOuUm, conversoes, toLowerCase, Propriedade.truthy,
      Propriedade.toNumber, JSNum.mul]
  · rw [converterParaMg_eq_spec x (some "unknown") (by intro u hu; cases hu; decide)]
    have : fatorSpec (toLowerCase "unknown") = 1 := by decide
    simp [convertToBaseUnitSpec, this, JSNum.mul_fin_one]

/-- C4, at the failing input: for the unit `constructor`, which is not a
symbol of the conversion table, the method returns `NaN`, where the contract
of the specification (factor 1 for an unrecognized symbol) returns the value
unchanged. -/
theorem converterParaMg_constructor :
    converterParaMg (.fin 5) (some "constructor") = .nan ∧
    convertToBaseUnitSpec (.fin 5) (some "constructor") = .fin 5 := by
  constructor
  · decide
  · have : fatorSpec (toLowerCase "constructor") = 1 := by decide
    simp [convertToBaseUnitSpec, this, JSNum.mul]

/-! ## Dosage calculator: theorems -/

/-- The guard of line 44 rejects exactly the pairs in which a value is not
finite or not strictly positive. -/
theorem massaOuVolumeInvalido_iff (m v : JSNum) :
    massaOuVolumeInvalido m v = true ↔
      (m.isFinite = false ∨ v.isFinite = false ∨
        JSNum.lt (.fin 0) m = false ∨ JSNum.lt (.fin 0) v = false) := by
  cases m <;> cases v <;>
    simp [massaOuVolumeInvalido, JSNum.isFinite, JSNum.le, JSNum.lt]

theorem calcularDosagem_invalido (notacaoExp : ℚ → String) (pv : JSNum) (pu : Option String)
    (m : JSNum) (mu : Option String) (v : JSNum) (vu forma med : Option String)
    (h : massaOuVolumeInvalido (converterParaMg m mu) (converterVolume v vu) = true) :
    calcularDosagem notacaoExp pv pu m mu v vu forma med = erroMassaVolume := by
  simp [calcularDosagem, h]

theorem calcularDosagem_valido (notacaoExp : ℚ → String) (pv : JSNum) (pu : Option String)
    (m : JSNum) (mu : Option String) (v : JSNum) (vu forma med : Option String)
    (h : massaOuVolumeInvalido (converterParaMg m mu) (converterVolume v vu) = false) :
    calcularDosagem notacaoExp pv pu m mu v vu forma med =
      { resultado := instrucaoSpec
          (toFixed2 notacaoExp ((converterParaMg pv pu).div
            ((converterParaMg m mu).div (converterVolume v vu)))) forma med,
        sucesso := true,
        quantidade := some ((converterParaMg pv pu).div
          ((converterParaMg m mu).div (converterVolume v vu))),
        prescricaoMg := some (converterParaMg pv pu) } := by
  unfold calcularDosagem instrucaoSpec
  simp only [h]
  by_cases hs : formaSolida (formaMinuscula forma) = true
  · simp [hs]
  · simp [hs]

/-- The method multiplies a zero mass by a factor or by `NaN`. -/
theorem converterParaMg_zero (mu : Option String) :
    converterParaMg (.fin 0) mu = .fin 0 ∨ converterParaMg (.fin 0) mu = .nan := by
  cases mu with
  | none => exact Or.inl rfl
  | some u =>
    unfold converterParaMg
    by_cases hu : u = ""
    · simp [hu]
    · simp only [hu, if_false]
      cases h : fatorOuUm (toLowerCase u) with
      | nan => exact Or.inr rfl
      | inf a =>
        exfalso
        unfold fatorOuUm at h
        split at h
        · cases hc : conversoes (toLowerCase u) <;> simp [hc, Propriedade.toNumber] at h
        · cases h
      | fin q => left; simp [JSNum.mul]

/-- C2: the calculation returns the failed result (no quantity, no
normalized dose) if and only if the converted mass or the converted volume is
not finite or not strictly positive, succeeds in every other case, and fails
whenever the available mass is zero. -/
theorem calcularDosagem_falha_sse (notacaoExp : ℚ → String) (pv : JSNum) (pu : Option String)
    (m : JSNum) (mu : Option String) (v : JSNum) (vu forma med : Option String) :
    (calcularDosagem notacaoExp pv pu m mu v vu forma med = erroMassaVolume ↔
      ((converterParaMg m mu).isFinite = false ∨ (converterVolume v vu).isFinite = false ∨
        JSNum.lt (.fin 0) (converterParaMg m mu) = false ∨
        JSNum.lt (.fin 0) (converterVolume v vu) = false)) ∧
    ((calcularDosagem notacaoExp pv pu m mu v vu forma med).sucesso = true ↔
      ¬ ((converterParaMg m mu).isFinite = false ∨ (converterVolume v vu).isFinite = false ∨
        JSNum.lt (.fin 0) (converterParaMg m mu) = false ∨
        JSNum.lt (.fin 0) (converterVolume v vu) = false)) ∧
    (erroMassaVolume.sucesso = false ∧ erroMassaVolume.quantidade = none ∧
      erroMassaVolume.prescricaoMg = none) ∧
    calcularDosagem notacaoExp pv pu (.fin 0) mu v vu forma med = erroMassaVolume := by
  refine ⟨?_, ?_, ⟨rfl, rfl, rfl⟩, ?_⟩
  · rw [← massaOuVolumeInvalido_iff]
    cases h : massaOuVolumeInvalido (converterParaMg m mu) (converterVolume v vu)
    · rw [calcularDosagem_valido _ _ _ _ _ _ _ _ _ h]
      simp [erroMassaVolume]
    · rw [calcularDosagem_invalido _ _ _ _ _ _ _ _ _ h]
      simp
  · rw [← massaOuVolumeInvalido_iff]
    cases h : massaOuVolumeInvalido (converterParaMg m mu) (converterVolume v vu)
    · rw [calcularDosagem_valido _ _ _ _ _ _ _ _ _ h]
      simp
    · rw [calcularDosagem_invalido _ _ _ _ _ _ _ _ _ h]
      simp [erroMassaVolume]
  · apply calcularDosagem_invalido
    rcases converterParaMg_zero mu with h | h <;> rw [h] <;>
      simp [massaOuVolumeInvalido, JSNum.isFinite, JSNum.le]

/-- With a finite positive divisor pair, dividing by the concentration is
multiplying by the volume and dividing by the mass. -/
theorem JSNum.div_div_eq (p : JSNum) (a b : ℚ) (ha : 0 < a) (hb : 0 < b) :
    p.div ((JSNum.fin a).div (.fin b)) = (p.mul (.fin b)).div (.fin a) := by
  have hab : 0 < a / b := div_pos ha hb
  cases p with
  | nan => simp [JSNum.div, JSNum.mul]
  | inf s =>
    simp [JSNum.div, JSNum.mul, hb.ne', not_lt.mpr hab.le, not_lt.mpr ha.le, not_lt.mpr hb.le]
  | fin q =>
    simp only [JSNum.div, JSNum.mul, hb.ne', ha.ne', hab.ne', if_false, JSNum.fin.injEq]
    field_simp

/-- The successful path of the calculation, on the values the method
converts: success, the normalized dose, and the quantity as the dose divided
by the concentration, which is the dose times the volume over the mass. -/
theorem calcularDosagem_sucesso (notacaoExp : ℚ → String) (pv : JSNum) (pu : Option String)
    (m : JSNum) (mu : Option String) (v : JSNum) (vu forma med : Option String)
    (hm : (converterParaMg m mu).isFinite = true) (hv : (converterVolume v vu).isFinite = true)
    (hm0 : JSNum.lt (.fin 0) (converterParaMg m mu) = true)
    (hv0 : JSNum.lt (.fin 0) (converterVolume v vu) = true) :
    (calcularDosagem notacaoExp pv pu m mu v vu forma med).sucesso = true ∧
    (calcularDosagem notacaoExp pv pu m mu v vu forma med).prescricaoMg =
      some (converterParaMg pv pu) ∧
    (calcularDosagem notacaoExp pv pu m mu v vu forma med).quantidade =
      some ((converterParaMg pv pu).div ((converterParaMg m mu).div (converterVolume v vu))) ∧
    (converterParaMg pv pu).div ((converterParaMg m mu).div (converterVolume v vu)) =
      ((converterParaMg pv pu).mul (converterVolume v vu)).div (converterParaMg m mu) := by
  have h : massaOuVolumeInvalido (converterParaMg m mu) (converterVolume v vu) = false := by
    cases hh : massaOuVolumeInvalido (converterParaMg m mu) (converterVolume v vu)
    · rfl
    · rcases (massaOuVolumeInvalido_iff _ _).mp hh with h | h | h | h <;> simp_all
  rw [calcularDosagem_valido _ _ _ _ _ _ _ _ _ h]
  refine ⟨rfl, rfl, rfl, ?_⟩
  generalize converterParaMg m mu = M at *
  generalize converterVolume v vu = V at *
  cases M with
  | nan => simp [JSNum.isFinite] at hm
  | inf a => simp [JSNum.isFinite] at hm
  | fin a =>
    cases V with
    | nan => simp [JSNum.isFinite] at hv
    | inf b => simp [JSNum.isFinite] at hv
    | fin b =>
      simp only [JSNum.lt, decide_eq_true_eq] at hm0 hv0
      exact JSNum.div_div_eq _ a b hm0 hv0

theorem calcularDosagem_sucesso_witness :
    (calcularDosagem semNotacaoExp (.fin 500) (some "mg") (.fin 1000) (some "mg") (.fin 10)
        (some "mL") (some "comprimido") (some "dipirona")).sucesso = true ∧
    (calcularDosagem semNotacaoExp (.fin 500) (some "mg") (.fin 1000) (some "mg") (.fin 10)
        (some "mL") (some "comprimido") (some "dipirona")).quantidade = some (.fin 5) := by
  have hM : converterParaMg (.fin 1000) (some "mg") = .fin 1000 := by
    simp [converterParaMg, fatorOuUm, conversoes, toLowerCase, Propriedade.truthy,
      Propriedade.toNumber, JSNum.mul]
  have hV : converterVolume (.fin 10) (some "mL") = .fin 10 := by
    simp [converterVolume, chaveVolume, conversoes, toLowerCase, Propriedade.truthy,
      Propriedade.toNumber, JSNum.mul]
  have hP : converterParaMg (.fin 500) (some "mg") = .fin 500 := by
    simp [converterParaMg, fatorOuUm, conversoes, toLowerCase, Propriedade.truthy,
      Propriedade.toNumber, JSNum.mul]
  have h := calcularDosagem_sucesso semNotacaoExp (.fin 500) (some "mg") (.fin 1000) (some "mg")
    (.fin 10) (some "mL") (some "comprimido") (some "dipirona")
    (by rw [hM]; rfl) (by rw [hV]; rfl) (by rw [hM]; simp [JSNum.lt])
    (by rw [hV]; simp [JSNum.lt])
  refine ⟨h.1, ?_⟩
  rw [h.2.2.1, hM, hV, hP]
  simp [JSNum.div]
  norm_num

/-- C1, at the failing input: with the prescribed unit `constructor`, which
is not a symbol of the conversion table, the calculation succeeds with the
normalized dose `NaN` and the quantity `NaN`, where the specification
(factor 1 for an unrecognized unit) gives the dose 500 and the quantity 5. -/
theorem calcularDosagem_unidade_constructor :
    calcularDosagem semNotacaoExp (.fin 500) (some "constructor") (.fin 1000) (some "mg")
        (.fin 10) (some "ml") (some "comprimido") (some "dipirona") =
      { resultado := "Administrar NaN comprimido", sucesso := true,
        quantidade := some .nan, prescricaoMg := some .nan } ∧
    convertToBaseUnitSpec (.fin 500) (some "constructor") = .fin 500 ∧
    (convertToBaseUnitSpec (.fin 500) (some "constructor")).div
      ((convertToBaseUnitSpec (.fin 1000) (some "mg")).div
        (convertToBaseUnitSpec (.fin 10) (some "ml"))) = .fin 5 := by
  have hM : converterParaMg (.fin 1000) (some "mg") = .fin 1000 := by
    simp [converterParaMg, fatorOuUm, conversoes, toLowerCase, Propriedade.truthy,
      Propriedade.toNumber, JSNum.mul]
  have hV : converterVolume (.fin 10) (some "ml") = .fin 10 := by
    simp [converterVolume, chaveVolume, conversoes, toLowerCase, Propriedade.truthy,
      Propriedade.toNumber, JSNum.mul]
  have hP : converterParaMg (.fin 500) (some "constructor") = .nan := by decide
  have h1 : fatorSpec (toLowerCase "constructor") = 1 := by decide
  have h2 : fatorSpec (toLowerCase "mg") = 1 := by decide
  have h3 : fatorSpec (toLowerCase "ml") = 1 := by decide
  refine ⟨?_, ?_, ?_⟩
  · rw [calcularDosagem_valido _ _ _ _ _ _ _ _ _
      (by rw [hM, hV]; simp [massaOuVolumeInvalido, JSNum.isFinite, JSNum.le]), hM, hV, hP]
    simp only [JSNum.div, toFixed2]
    decide
  · simp [convertToBaseUnitSpec, h1, JSNum.mul]
  · simp [convertToBaseUnitSpec, h1, h2, h3, JSNum.mul, JSNum.div]
    norm_num

/-- The volume conversion of lines 41-42 computes what `converterParaMg`
computes for the same value and unit. -/
theorem converterVolume_eq_converterParaMg (v : JSNum) (vu : Option String) :
    converterVolume v vu = converterParaMg v vu := by
  have hml : (conversoes "ml") = .fator 1 := by decide
  cases vu with
  | none =>
    simp [converterVolume, chaveVolume, converterParaMg, hml, Propriedade.truthy,
      Propriedade.toNumber, JSNum.mul_fin_one]
  | some u =>
    by_cases hu : u = ""
    · simp [converterVolume, chaveVolume, converterParaMg, hu, hml, Propriedade.truthy,
        Propriedade.toNumber, JSNum.mul_fin_one]
    · simp only [converterVolume, chaveVolume, converterParaMg, hu, if_false, fatorOuUm]
      cases h : (conversoes (toLowerCase u)).truthy
      · simp [JSNum.mul_fin_one]
      · simp

/-- Outside the two inherited names the calculation does what section 4.2
of the specification says, with every value converted by the conversion
table of the specification: when the converted mass and volume are finite
and strictly positive it succeeds, the normalized dose is the converted
prescription, and the quantity is the dose divided by the concentration. -/
theorem calcularDosagem_conforme_spec (notacaoExp : ℚ → String) (pv : JSNum)
    (pu : Option String) (m : JSNum) (mu : Option String) (v : JSNum)
    (vu forma med : Option String)
    (hpu : ∀ u, pu = some u → nomeHerdado (toLowerCase u) = false)
    (hmu : ∀ u, mu = some u → nomeHerdado (toLowerCase u) = false)
    (hvu : ∀ u, vu = some u → nomeHerdado (toLowerCase u) = false)
    (hm : (convertToBaseUnitSpec m mu).isFinite = true)
    (hv : (convertToBaseUnitSpec v vu).isFinite = true)
    (hm0 : JSNum.lt (.fin 0) (convertToBaseUnitSpec m mu) = true)
    (hv0 : JSNum.lt (.fin 0) (convertToBaseUnitSpec v vu) = true) :
    (calcularDosagem notacaoExp pv pu m mu v vu forma med).sucesso = true ∧
    (calcularDosagem notacaoExp pv pu m mu v vu forma med).prescricaoMg =
      some (convertToBaseUnitSpec pv pu) ∧
    (calcularDosagem notacaoExp pv pu m mu v vu forma med).quantidade =
      some ((convertToBaseUnitSpec pv pu).div
        ((convertToBaseUnitSpec m mu).div (convertToBaseUnitSpec v vu))) ∧
    (convertToBaseUnitSpec pv pu).div
        ((convertToBaseUnitSpec m mu).div (convertToBaseUnitSpec v vu)) =
      ((convertToBaseUnitSpec pv pu).mul (convertToBaseUnitSpec v vu)).div
        (convertToBaseUnitSpec m mu) := by
  have eP := converterParaMg_eq_spec pv pu hpu
  have eM := converterParaMg_eq_spec m mu hmu
  have eV : converterVolume v vu = convertToBaseUnitSpec v vu := by
    rw [converterVolume_eq_converterParaMg, converterParaMg_eq_spec v vu hvu]
  have h := calcularDosagem_sucesso notacaoExp pv pu m mu v vu forma med
    (by rw [eM]; exact hm) (by rw [eV]; exact hv) (by rw [eM]; exact hm0)
    (by rw [eV]; exact hv0)
  rw [eP, eM, eV] at h
  exact h

theorem calcularDosagem_conforme_spec_witness :
    (calcularDosagem semNotacaoExp (.fin 500) (some "mg") (.fin 1000) (some "mg") (.fin 10)
        (some "mL") (some "tablet") (some "dipirona")).quantidade =
      some ((convertToBaseUnitSpec (.fin 500) (some "mg")).div
        ((convertToBaseUnitSpec (.fin 1000) (some "mg")).div
          (convertToBaseUnitSpec (.fin 10) (some "mL")))) ∧
    (convertToBaseUnitSpec (.fin 1000) (some "mg")).div
      (convertToBaseUnitSpec (.fin 10) (some "mL")) = .fin 100 ∧
    (convertToBaseUnitSpec (.fin 500) (some "mg")).div
        ((convertToBaseUnitSpec (.fin 1000) (some "mg")).div
          (convertToBaseUnitSpec (.fin 10) (some "mL"))) = .fin 5 := by
  have h2 : fatorSpec (toLowerCase "mg") = 1 := by decide
  have h3 : fatorSpec (toLowerCase "mL") = 1 := by decide
  have hM : convertToBaseUnitSpec (.fin 1000) (some "mg") = .fin 1000 := by
    simp [convertToBaseUnitSpec, h2, JSNum.mul]
  have hV : convertToBaseUnitSpec (.fin 10) (some "mL") = .fin 10 := by
    simp [convertToBaseUnitSpec, h3, JSNum.mul]
  have hP : convertToBaseUnitSpec (.fin 500) (some "mg") = .fin 500 := by
    simp [convertToBaseUnitSpec, h2, JSNum.mul]
  refine ⟨(calcularDosagem_conforme_spec semNotacaoExp (.fin 500) (some "mg") (.fin 1000)
    (some "mg") (.fin 10) (some "mL") (some "tablet") (some "dipirona")
    (by intro u hu; cases hu; decide) (by intro u hu; cases hu; decide)
    (by intro u hu; cases hu; decide) (by rw [hM]; rfl) (by rw [hV]; rfl)
    (by rw [hM]; simp [JSNum.lt]) (by rw [hV]; simp [JSNum.lt])).2.2.1, ?_, ?_⟩
  · rw [hM, hV]; simp [JSNum.div]; norm_num
  · rw [hM, hV, hP]; simp [JSNum.div]; norm_num

/-! ## Rendering of the quantity: theorems -/

theorem digitChar_isDigit (d : ℕ) (h : d < 10) : (Nat.digitChar d).isDigit = true := by
  interval_cases d <;> rfl

theorem toDigitsCore_isDigit (f : ℕ) : ∀ (n : ℕ) (acc : List Char),
    (∀ c ∈ acc, c.isDigit = true) → ∀ c ∈ Nat.toDigitsCore 10 f n acc, c.isDigit = true := by
  induction f with
  | zero => intro n acc h; simpa [Nat.toDigitsCore] using h
  | succ f ih =>
    intro n acc h
    have hd : (Nat.digitChar (n % 10)).isDigit = true :=
      digitChar_isDigit _ (Nat.mod_lt _ (by norm_num))
    have hacc : ∀ c ∈ Nat.digitChar (n % 10) :: acc, c.isDigit = true := by
      intro c hc
      rcases List.mem_cons.mp hc with rfl | hc
      · exact hd
      · exact h c hc
    unfold Nat.toDigitsCore
    simp only
    split
    · exact hacc
    · exact ih _ _ hacc

theorem toDigitsCore_ne_nil (f : ℕ) : ∀ (n : ℕ) (acc : List Char),
    acc ≠ [] → Nat.toDigitsCore 10 f n acc ≠ [] := by
  induction f with
  | zero => intro n acc h; simpa [Nat.toDigitsCore] using h
  | succ f ih =>
    intro n acc h
    unfold Nat.toDigitsCore
    simp only
    split
    · simp
    · exact ih _ _ (List.cons_ne_nil _ _)

theorem repr_isDigit (n : ℕ) : ∀ c ∈ (Nat.repr n).data, c.isDigit = true := by
  intro c hc
  exact toDigitsCore_isDigit (n + 1) n [] (fun c h => absurd h (List.not_mem_nil c)) c hc

theorem repr_ne_nil (n : ℕ) : (Nat.repr n).data ≠ [] := by
  show Nat.toDigitsCore 10 (n + 1) n [] ≠ []
  unfold Nat.toDigitsCore
  simp only
  split
  · simp
  · exact toDigitsCore_ne_nil _ _ _ (List.cons_ne_nil _ _)

theorem takeWhile_digitos (ds r : List Char) (p : Char) (hp : p.isDigit = false)
    (h : ∀ c ∈ ds, c.isDigit = true) :
    (ds ++ p :: r).takeWhile Char.isDigit = ds ∧ (ds ++ p :: r).dropWhile Char.isDigit = p :: r := by
  induction ds with
  | nil => simp [List.takeWhile, List.dropWhile, hp]
  | cons d t ih =>
    have hd : d.isDigit = true := h d (List.mem_cons_self _ _)
    have ht := ih (fun c hc => h c (List.mem_cons_of_mem _ hc))
    simp [List.takeWhile, List.dropWhile, hd, ht.1, ht.2]

/-- A numeral made of an optional minus sign, the decimal digits of `k`, a
point and two digits has exactly two fractional digits. -/
theorem duasCasas_numeral (neg : Bool) (k a b : ℕ) (ha : a < 10) (hb : b < 10) :
    duasCasas ((if neg then "-" else "") ++
      (Nat.repr k ++ "." ++ String.mk [Nat.digitChar a, Nat.digitChar b])) = true := by
  have hk := repr_isDigit k
  have hne := repr_ne_nil k
  have hdata : ((if neg then "-" else "") ++
      (Nat.repr k ++ "." ++ String.mk [Nat.digitChar a, Nat.digitChar b])).data =
      (if neg then ['-'] else []) ++
        ((Nat.repr k).data ++ '.' :: [Nat.digitChar a, Nat.digitChar b]) := by
    cases neg <;> simp [String.data_append]
  have hsem : semSinal ((if neg then ['-'] else []) ++
      ((Nat.repr k).data ++ '.' :: [Nat.digitChar a, Nat.digitChar b])) =
      (Nat.repr k).data ++ '.' :: [Nat.digitChar a, Nat.digitChar b] := by
    cases neg
    · simp only [Bool.false_eq_true, if_false, List.nil_append]
      cases hd : (Nat.repr k).data with
      | nil => exact absurd hd hne
      | cons d t =>
        have hdd : d.isDigit = true := hk d (by rw [hd]; exact List.mem_cons_self _ _)
        simp only [List.cons_append]
        unfold semSinal
        split
        · rename_i heq
          simp only [List.cons.injEq] at heq
          rw [heq.1] at hdd
          exact absurd hdd (by decide)
        · rfl
    · simp [semSinal]
  have htd := takeWhile_digitos (Nat.repr k).data [Nat.digitChar a, Nat.digitChar b] '.'
    (by decide) hk
  unfold duasCasas
  simp only [hdata, hsem, htd.1, htd.2]
  simp [hne, digitChar_isDigit a ha, digitChar_isDigit b hb]

/-- The hundredths chosen by `toFixed` are within half a hundredth of the
value. -/
theorem centesimos_proximo (x : ℚ) (hx : 0 ≤ x) :
    |(centesimos x : ℚ) / 100 - x| ≤ 1 / 200 := by
  have hy : (0 : ℤ) ≤ ⌊x * 100 + 1 / 2⌋ := Int.floor_nonneg.mpr (by positivity)
  have hn : ((centesimos x : ℕ) : ℚ) = ((⌊x * 100 + 1 / 2⌋ : ℤ) : ℚ) := by
    unfold centesimos
    have := Int.toNat_of_nonneg hy
    exact_mod_cast congrArg (fun z : ℤ => (z : ℚ)) this
  have h1 := Int.floor_le (x * 100 + 1 / 2)
  have h2 := Int.lt_floor_add_one (x * 100 + 1 / 2)
  rw [hn, abs_le]
  constructor <;> linarith

/-- A finite quantity below `10^21` in magnitude prints as its sign, the
integer part of the rounded hundredths, a point and two digits. -/
theorem toFixed2_fin (notacaoExp : ℚ → String) (x : ℚ) (h : |x| < (10 : ℚ) ^ 21) :
    toFixed2 notacaoExp (.fin x) =
      (if x < 0 then "-" else "") ++
        (Nat.repr (centesimos |x| / 100) ++ "." ++
          String.mk [Nat.digitChar (centesimos |x| % 100 / 10),
            Nat.digitChar (centesimos |x| % 10)]) := by
  simp only [toFixed2, not_le.mpr h, if_false]

theorem duasCasas_toFixed2 (notacaoExp : ℚ → String) (x : ℚ) (h : |x| < (10 : ℚ) ^ 21) :
    duasCasas (toFixed2 notacaoExp (.fin x)) = true := by
  rw [toFixed2_fin notacaoExp x h]
  have := duasCasas_numeral (decide (x < 0)) (centesimos |x| / 100)
    (centesimos |x| % 100 / 10) (centesimos |x| % 10) (by omega) (by omega)
  simpa using this

/-- C10, as amended: a successful calculation words its instruction by the
lower-cased form, the tablet/capsule phrasing with the form as supplied for
`comprimido`, `comprimidos` and `capsula` and the mL phrasing with the drug
name for every other form; a finite quantity below `10^21` in magnitude is
printed rounded to the nearest hundredth with exactly two fractional digits,
and a quantity that is not finite is printed by name. -/
theorem instrucao_por_forma (notacaoExp : ℚ → String) (pv : JSNum) (pu : Option String)
    (m : JSNum) (mu : Option String) (v : JSNum) (vu forma med : Option String)
    (hs : (calcularDosagem notacaoExp pv pu m mu v vu forma med).sucesso = true) :
    ∃ q, (calcularDosagem notacaoExp pv pu m mu v vu forma med).quantidade = some q ∧
      (∀ f, forma = some f → formaSolida (toLowerCase f) = true →
        (calcularDosagem notacaoExp pv pu m mu v vu forma med).resultado =
          "Administrar " ++ toFixed2 notacaoExp q ++ " " ++ f) ∧
      (formaSolida (formaMinuscula forma) = false →
        (calcularDosagem notacaoExp pv pu m mu v vu forma med).resultado =
          "Administrar " ++ toFixed2 notacaoExp q ++ " mL de " ++ interpolar med) ∧
      (∀ x, q = .fin x → |x| < (10 : ℚ) ^ 21 →
        toFixed2 notacaoExp q =
          (if x < 0 then "-" else "") ++
            (Nat.repr (centesimos |x| / 100) ++ "." ++
              String.mk [Nat.digitChar (centesimos |x| % 100 / 10),
                Nat.digitChar (centesimos |x| % 10)]) ∧
        duasCasas (toFixed2 notacaoExp q) = true ∧
        |(centesimos (abs x) : ℚ) / 100 - abs x| ≤ 1 / 200) ∧
      (q.isFinite = false →
        toFixed2 notacaoExp q = "NaN" ∨ toFixed2 notacaoExp q = "Infinity" ∨
          toFixed2 notacaoExp q = "-Infinity") := by
  cases h : massaOuVolumeInvalido (converterParaMg m mu) (converterVolume v vu)
  · rw [calcularDosagem_valido _ _ _ _ _ _ _ _ _ h]
    refine ⟨_, rfl, ?_, ?_, ?_, ?_⟩
    · intro f hf hsol
      subst hf
      have hne : f ≠ "" := by
        intro he
        subst he
        exact absurd hsol (by decide)
      simp [instrucaoSpec, formaMinuscula, hne, hsol, interpolar]
    · intro hsol
      simp [instrucaoSpec, hsol]
    · intro x hq hx
      rw [hq]
      exact ⟨toFixed2_fin notacaoExp x hx, duasCasas_toFixed2 notacaoExp x hx,
        centesimos_proximo _ (abs_nonneg x)⟩
    · intro hq
      generalize (converterParaMg pv pu).div ((converterParaMg m mu).div (converterVolume v vu))
        = q at hq
      cases q with
      | nan => exact Or.inl rfl
      | inf a => cases a
                 · exact Or.inr (Or.inl rfl)
                 · exact Or.inr (Or.inr rfl)
      | fin x => simp [JSNum.isFinite] at hq
  · rw [calcularDosagem_invalido _ _ _ _ _ _ _ _ _ h] at hs
    simp [erroMassaVolume] at hs

theorem instrucao_por_forma_witness :
    (calcularDosagem semNotacaoExp (.fin 500) (some "mg") (.fin 1000) (some "mg") (.fin 10)
      (some "ml") (some "Comprimido") (some "dipirona")).resultado =
        "Administrar 5.00 Comprimido" := by
  have hM : converterParaMg (.fin 1000) (some "mg") = .fin 1000 := by
    simp [converterParaMg, fatorOuUm, conversoes, toLowerCase, Propriedade.truthy,
      Propriedade.toNumber, JSNum.mul]
  have hV : converterVolume (.fin 10) (some "ml") = .fin 10 := by
    simp [converterVolume, chaveVolume, conversoes, toLowerCase, Propriedade.truthy,
      Propriedade.toNumber, JSNum.mul]
  have hP : converterParaMg (.fin 500) (some "mg") = .fin 500 := by
    simp [converterParaMg, fatorOuUm, conversoes, toLowerCase, Propriedade.truthy,
      Propriedade.toNumber, JSNum.mul]
  have hinv : massaOuVolumeInvalido (converterParaMg (.fin 1000) (some "mg"))
      (converterVolume (.fin 10) (some "ml")) = false := by
    rw [hM, hV]; simp [massaOuVolumeInvalido, JSNum.isFinite, JSNum.le]
  have hval := calcularDosagem_valido semNotacaoExp (.fin 500) (some "mg") (.fin 1000)
    (some "mg") (.fin 10) (some "ml") (some "Comprimido") (some "dipirona") hinv
  have hq : (converterParaMg (.fin 500) (some "mg")).div
      ((converterParaMg (.fin 1000) (some "mg")).div (converterVolume (.fin 10) (some "ml")))
      = .fin 5 := by
    rw [hM, hV, hP]; simp [JSNum.div]; norm_num
  obtain ⟨q, hq1, hsol, _, hfin, _⟩ :=
    instrucao_por_forma semNotacaoExp (.fin 500) (some "mg") (.fin 1000) (some "mg") (.fin 10)
      (some "ml") (some "Comprimido") (some "dipirona") (by rw [hval])
  have hq5 : q = .fin 5 := by
    rw [hval] at hq1
    simp only [Option.some.injEq] at hq1
    rw [← hq1, hq]
  rw [hsol "Comprimido" rfl (by decide), (hfin 5 hq5 (by norm_num)).1]
  have hc : centesimos |(5 : ℚ)| = 500 := by
    unfold centesimos
    norm_num
    rfl
  rw [hc]
  decide

/-- C10, the counterexample: an infinite prescribed value gives a successful
result whose instruction prints the quantity as `Infinity`, which has no
fractional digits. -/
theorem instrucao_quantidade_infinita :
    calcularDosagem semNotacaoExp (.inf false) (some "mg") (.fin 1000) (some "mg") (.fin 10)
        (some "ml") (some "comprimido") (some "dipirona") =
      { resultado := "Administrar Infinity comprimido", sucesso := true,
        quantidade := some (.inf false), prescricaoMg := some (.inf false) } ∧
    duasCasas (toFixed2 semNotacaoExp (.inf false)) = false := by
  have hM : converterParaMg (.fin 1000) (some "mg") = .fin 1000 := by
    simp [converterParaMg, fatorOuUm, conversoes, toLowerCase, Propriedade.truthy,
      Propriedade.toNumber, JSNum.mul]
  have hV : converterVolume (.fin 10) (some "ml") = .fin 10 := by
    simp [converterVolume, chaveVolume, conversoes, toLowerCase, Propriedade.truthy,
      Propriedade.toNumber, JSNum.mul]
  have hP : converterParaMg (.inf false) (some "mg") = .inf false := by
    simp [converterParaMg, fatorOuUm, conversoes, toLowerCase, Propriedade.truthy,
      Propriedade.toNumber, JSNum.mul]
  constructor
  · rw [calcularDosagem_valido _ _ _ _ _ _ _ _ _
      (by rw [hM, hV]; simp [massaOuVolumeInvalido, JSNum.isFinite, JSNum.le]), hM, hV, hP]
    simp only [JSNum.div, toFixed2]
    norm_num
    decide
  · decide

/-! ## Safety checker: theorems -/

theorem verificarLimite_eq_spec (d : JSNum) (key : String) :
    verificarLimite (limitesSeguranca key) d =
    alertaSpec (match safetyThresholdSpec key with
      | none => .dentroDosLimites
      | some e =>
        match e.max with
        | some mx => if d.gt (.fin mx) then .acimaDoMaximo mx e.unit else checkMinimumSpec d e
        | none => checkMinimumSpec d e) := by
  unfold verificarLimite limitesSeguranca safetyThresholdSpec
  by_cases h1 : key = "dipirona"
  · subst h1
    simp only [if_true, excedeMaximo, abaixoMinimo, checkMinimumSpec, interpolarDose,
      interpolar]
    by_cases hg : d.gt (.fin 4000) = true <;>
      by_cases hl : d.lt (.fin 500) = true <;>
      simp [hg, hl, alertaSpec, dentroDosLimites]
  by_cases h2 : key = "paracetamol"
  · subst h2
    simp only [if_true, excedeMaximo, abaixoMinimo, checkMinimumSpec, interpolarDose,
      interpolar, show ¬ ("paracetamol" = "dipirona") by decide, if_false]
    by_cases hg : d.gt (.fin 4000) = true <;>
      by_cases hl : d.lt (.fin 500) = true <;>
      simp [hg, hl, alertaSpec, dentroDosLimites]
  by_cases h3 : key = "morfina"
  · subst h3
    simp only [if_true, excedeMaximo, abaixoMinimo, checkMinimumSpec, interpolarDose,
      interpolar, show ¬ ("morfina" = "dipirona") by decide,
      show ¬ ("morfina" = "paracetamol") by decide, if_false]
    by_cases hg : d.gt (.fin 30) = true <;>
      simp [hg, alertaSpec, dentroDosLimites]
  simp only [h1, h2, h3, if_false]
  cases nomeHerdado key <;>
    simp [excedeMaximo, abaixoMinimo, alertaSpec, dentroDosLimites]

/-- C3: for every dose and every drug name the safety check gives the
message and the severity of the classification of section 4.3 (no drug; above
the maximum, checked first; below the minimum; within limits, also when there
is no entry), with the three sample calls of the specification. -/
theorem verificarSeguranca_eq_spec (d : JSNum) (n : Option String) :
    verificarSeguranca d n = alertaSpec (checkSafetySpec d n) ∧
    ((checkSafetySpec d n = .dentroDosLimites ∧ (verificarSeguranca d n).tipo = "success") ∨
      (checkSafetySpec d n ≠ .dentroDosLimites ∧ (verificarSeguranca d n).tipo = "warning")) ∧
    verificarSeguranca (.fin 5000) (some "dipirona") =
      { mensagem := "ALERTA: A dosagem prescrita excede 4000 mg.", tipo := "warning" } ∧
    (verificarSeguranca (.fin 2000) (some "dipirona")).tipo = "success" ∧
    (verificarSeguranca (.fin 100) (some "unknown-drug")).tipo = "success" := by
  have heq : ∀ (d : JSNum) (n : Option String),
      verificarSeguranca d n = alertaSpec (checkSafetySpec d n) := by
    intro d n
    cases n with
    | none => rfl
    | some m =>
      unfold verificarSeguranca checkSafetySpec
      by_cases hm : m = ""
      · simp [hm, alertaSpec]
      · simp only [hm, if_false]
        exact verificarLimite_eq_spec d (toLowerCase m)
  have hd : toLowerCase "dipirona" = "dipirona" := by decide
  have hu : safetyThresholdSpec (toLowerCase "unknown-drug") = none := by decide
  refine ⟨heq d n, ?_, ?_, ?_, ?_⟩
  · rw [heq d n]
    cases checkSafetySpec d n <;> simp [alertaSpec]
  · rw [heq]
    simp [checkSafetySpec, hd, safetyThresholdSpec, JSNum.gt, JSNum.lt, alertaSpec]
    decide
  · rw [heq]
    simp [checkSafetySpec, hd, safetyThresholdSpec, JSNum.gt, JSNum.lt, checkMinimumSpec]
    norm_num [alertaSpec]
  · rw [heq]
    simp [checkSafetySpec, hu, alertaSpec]

/-! ## History store: theorems -/

/-- C6: after `adicionarHistorico` the list is the new entry, made of the
clock reading and the ten given fields, followed by the previous list
unchanged; the length grows by one. -/
theorem adicionarHistorico_lista (agora : ℤ) (campos : Campos) (e : Estado) :
    obterHistorico (adicionarHistorico agora campos e) =
      { id := agora, campos := campos } :: obterHistorico e ∧
    (obterHistorico (adicionarHistorico agora campos e)).head? =
      some { id := agora, campos := campos } ∧
    (obterHistorico (adicionarHistorico agora campos e)).tail = obterHistorico e ∧
    (obterHistorico (adicionarHistorico agora campos e)).length =
      (obterHistorico e).length + 1 := by
  refine ⟨rfl, rfl, rfl, rfl⟩

/-- C7: after `removerHistorico` the list is the previous list without the
entries of the given id: none of that id remains, every other entry stays in
place and in order, and an id that is not present changes nothing. -/
theorem removerHistorico_lista (id : ℤ) (e : Estado) :
    obterHistorico (removerHistorico id e) =
      (obterHistorico e).filter (fun item => item.id ≠ id) ∧
    (∀ r ∈ obterHistorico (removerHistorico id e), r.id ≠ id) ∧
    (∀ r ∈ obterHistorico e, r.id ≠ id → r ∈ obterHistorico (removerHistorico id e)) ∧
    (obterHistorico (removerHistorico id e)).Sublist (obterHistorico e) ∧
    (id ∉ ids (obterHistorico e) → obterHistorico (removerHistorico id e) = obterHistorico e) := by
  have h : obterHistorico (removerHistorico id e) =
      (obterHistorico e).filter (fun item => item.id ≠ id) := rfl
  refine ⟨h, ?_, ?_, ?_, ?_⟩
  · intro r hr
    rw [h] at hr
    simpa using (List.mem_filter.mp hr).2
  · intro r hr hne
    rw [h]
    exact List.mem_filter.mpr ⟨hr, by simpa using hne⟩
  · rw [h]
    exact List.filter_sublist _
  · intro hid
    rw [h]
    apply List.filter_eq_self.mpr
    intro r hr
    have : r.id ≠ id := by
      intro he
      exact hid (by rw [← he]; exact List.mem_map_of_mem _ hr)
    simpa using this

theorem ids_filter_nodup (h : List Registro) (id : ℤ) (hn : (ids h).Nodup) :
    (ids (h.filter (fun item => item.id ≠ id))).Nodup :=
  hn.sublist ((List.filter_sublist h).map _)

/-- C5, as amended: from a store whose ids are pairwise distinct, a sequence
of additions and removals in which every addition reads a clock value that is
not an id of the store at that moment leaves the ids pairwise distinct. -/
theorem ids_distintos (e : Estado) (ops : List Operacao)
    (hn : (ids (obterHistorico e)).Nodup)
    (hr : relogioNovo (obterHistorico e) ops = true) :
    (ids (obterHistorico (executarTodas e ops))).Nodup := by
  induction ops generalizing e with
  | nil => exact hn
  | cons op ops ih =>
    cases op with
    | adicionar agora campos =>
      simp only [relogioNovo, Bool.and_eq_true, decide_eq_true_eq] at hr
      apply ih (adicionarHistorico agora campos e)
      · show (ids ({ id := agora, campos := campos } :: obterHistorico e)).Nodup
        exact List.nodup_cons.mpr ⟨hr.1, hn⟩
      · exact hr.2
    | remover id =>
      simp only [relogioNovo] at hr
      apply ih (removerHistorico id e)
      · exact ids_filter_nodup _ id hn
      · exact hr

theorem ids_distintos_witness :
    (ids (obterHistorico (executarTodas estadoVazio
      [.adicionar 1 camposExemplo, .adicionar 2 camposInfinito, .remover 1]))).Nodup :=
  ids_distintos estadoVazio
    [.adicionar 1 camposExemplo, .adicionar 2 camposInfinito, .remover 1]
    (by decide) (by decide)

/-- C5, the counterexample: two additions that read the same clock value
leave two entries with the same id in a store that began empty. -/
theorem ids_repetidos :
    (ids (obterHistorico estadoVazio)).Nodup ∧
    ids (obterHistorico (executarTodas estadoVazio
      [.adicionar 1 camposExemplo, .adicionar 1 camposExemplo])) = [1, 1] ∧
    ¬ (ids (obterHistorico (executarTodas estadoVazio
      [.adicionar 1 camposExemplo, .adicionar 1 camposExemplo]))).Nodup := by
  refine ⟨by decide, rfl, ?_⟩
  show ¬ ([1, 1] : List ℤ).Nodup
  decide

theorem Valor.json_valor_representavel (v : Valor) (h : v.representavel = true) : v.json = v := by
  cases v with
  | numero x =>
    simp only [Valor.representavel] at h
    simp [Valor.json, h]
  | indefinido => rfl
  | nulo => rfl
  | booleano b => rfl
  | texto t => rfl

theorem Registro.json_registro_representavel (r : Registro) (h : r.campos.representavel = true) :
    r.json = r := by
  obtain ⟨id, c⟩ := r
  simp only [Campos.representavel, Bool.and_eq_true] at h
  obtain ⟨⟨⟨⟨⟨⟨⟨⟨⟨h1, h2⟩, h3⟩, h4⟩, h5⟩, h6⟩, h7⟩, h8⟩, h9⟩, h10⟩ := h
  simp only [Registro.json, Campos.json, Valor.json_valor_representavel _ h1,
    Valor.json_valor_representavel _ h2, Valor.json_valor_representavel _ h3,
    Valor.json_valor_representavel _ h4, Valor.json_valor_representavel _ h5,
    Valor.json_valor_representavel _ h6, Valor.json_valor_representavel _ h7,
    Valor.json_valor_representavel _ h8, Valor.json_valor_representavel _ h9,
    Valor.json_valor_representavel _ h10]

/-- When the current key holds the JSON text of a sequence, the constructor
loads that sequence, whatever the legacy key holds. -/
theorem carregarHistorico_atual (ls : LocalStorage) (h : List Registro)
    (hc : getItem ls "historicoDosagens" = some (.json h)) :
    carregarHistorico ls = some h := by
  simp [carregarHistorico, ou, hc, itemTruthy, jsonParse]

/-- When the current key is absent or holds the empty string, the
constructor works on what the legacy key holds. -/
theorem carregarHistorico_legado (ls : LocalStorage)
    (hc : getItem ls "historicoDosagens" = none ∨ getItem ls "historicoDosagens" = some .vazio) :
    carregarHistorico ls =
      if itemTruthy (getItem ls "dosageHistory") then
        (getItem ls "dosageHistory").bind jsonParse
      else some [] := by
  rcases hc with hc | hc <;> simp [carregarHistorico, ou, hc, itemTruthy]

/-- Every mutation ends by writing the whole list under the current key. -/
theorem executar_armazenamento (e : Estado) (op : Operacao) :
    (executar e op).armazenamento =
      setItem e.armazenamento "historicoDosagens" (jsonStringify (obterHistorico (executar e op))) := by
  cases op <;> rfl

/-- C8, as amended: after every addition or removal the current key holds
the serialization of the whole list, and a fresh load over that storage,
whatever the legacy key holds, gives the list as JSON writes it: same length,
order and ids, equal to the list itself when no field of an entry is `NaN` or
an infinity (such a field is read back as `null`); the empty list included. -/
theorem persistencia_ida_e_volta (e : Estado) (op : Operacao) :
    getItem (executar e op).armazenamento "historicoDosagens" =
      some (jsonStringify (obterHistorico (executar e op))) ∧
    carregarHistorico (executar e op).armazenamento =
      some ((obterHistorico (executar e op)).map Registro.json) ∧
    (∀ legado : Option Item,
      carregarHistorico (fun k =>
        if k = "dosageHistory" then legado else (executar e op).armazenamento k) =
      some ((obterHistorico (executar e op)).map Registro.json)) ∧
    ids ((obterHistorico (executar e op)).map Registro.json) =
      ids (obterHistorico (executar e op)) ∧
    ((∀ r ∈ obterHistorico (executar e op), r.campos.representavel = true) →
      carregarHistorico (executar e op).armazenamento =
        some (obterHistorico (executar e op))) := by
  have hst : getItem (executar e op).armazenamento "historicoDosagens" =
      some (jsonStringify (obterHistorico (executar e op))) := by
    rw [executar_armazenamento]
    simp [getItem, setItem]
  have hload := carregarHistorico_atual _ _ hst
  refine ⟨hst, hload, ?_, ?_, ?_⟩
  · intro legado
    apply carregarHistorico_atual
    have hk : ¬ ("historicoDosagens" = "dosageHistory") := by decide
    simp only [getItem, hk, if_false]
    exact hst
  · simp [ids, List.map_map, Function.comp_def, Registro.json]
  · intro hrep
    rw [hload]
    congr 1
    calc (obterHistorico (executar e op)).map Registro.json
        = (obterHistorico (executar e op)).map id :=
          List.map_congr_left (fun r hr => Registro.json_registro_representavel r (hrep r hr))
      _ = obterHistorico (executar e op) := List.map_id _

/-- C8, the counterexample: after the addition of an entry whose prescribed
value is `Infinity`, a fresh load gives an entry that holds `null` there, so
the loaded sequence is not the list. -/
theorem persistencia_infinito :
    carregarHistorico (adicionarHistorico 1 camposInfinito estadoVazio).armazenamento =
      some [{ id := 1, campos := camposInfinitoLido }] ∧
    obterHistorico (adicionarHistorico 1 camposInfinito estadoVazio) =
      [{ id := 1, campos := camposInfinito }] ∧
    carregarHistorico (adicionarHistorico 1 camposInfinito estadoVazio).armazenamento ≠
      some (obterHistorico (adicionarHistorico 1 camposInfinito estadoVazio)) := by
  have hj : Registro.json { id := 1, campos := camposInfinito } =
      { id := 1, campos := camposInfinitoLido } := by
    simp [Registro.json, Campos.json, Valor.json, camposInfinito, camposInfinitoLido,
      camposExemplo, JSNum.isFinite]
  have h1 : carregarHistorico (adicionarHistorico 1 camposInfinito estadoVazio).armazenamento =
      some [{ id := 1, campos := camposInfinitoLido }] := by
    rw [carregarHistorico_atual _ [{ id := 1, campos := camposInfinitoLido }]]
    simp [getItem, adicionarHistorico, salvarHistorico, setItem, jsonStringify, estadoVazio, hj]
  refine ⟨h1, rfl, ?_⟩
  rw [h1]
  simp [obterHistorico, adicionarHistorico, salvarHistorico, estadoVazio, camposInfinito,
    camposInfinitoLido]

/-- C9, as amended: the constructor chooses its source by truthiness.  When
the current key holds the JSON text of a sequence it loads that sequence,
whatever the legacy key holds; when the current key is absent or holds the
empty string and the legacy key holds the JSON text of a sequence it loads
the legacy sequence; when each key is absent or holds the empty string it
starts empty. -/
theorem carregarHistorico_fonte (ls : LocalStorage) :
    (∀ h, getItem ls "historicoDosagens" = some (.json h) → carregarHistorico ls = some h) ∧
    (∀ h, (getItem ls "historicoDosagens" = none ∨ getItem ls "historicoDosagens" = some .vazio) →
      getItem ls "dosageHistory" = some (.json h) → carregarHistorico ls = some h) ∧
    ((getItem ls "historicoDosagens" = none ∨ getItem ls "historicoDosagens" = some .vazio) →
      (getItem ls "dosageHistory" = none ∨ getItem ls "dosageHistory" = some .vazio) →
      carregarHistorico ls = some []) := by
  refine ⟨fun h hc => carregarHistorico_atual ls h hc, ?_, ?_⟩
  · intro h hc hl
    rw [carregarHistorico_legado ls hc, hl]
    simp [itemTruthy, jsonParse]
  · intro hc hl
    rw [carregarHistorico_legado ls hc]
    rcases hl with hl | hl <;> simp [hl, itemTruthy]

/-- C9, the counterexample: the current key is present, holding the empty
string, and the constructor loads the entry of the legacy key. -/
theorem carregarHistorico_chave_vazia :
    getItem armazenamentoLegado "historicoDosagens" = some .vazio ∧
    getItem armazenamentoLegado "dosageHistory" =
      some (.json [{ id := 7, campos := camposExemplo }]) ∧
    carregarHistorico armazenamentoLegado = some [{ id := 7, campos := camposExemplo }] := by
  have h1 : getItem armazenamentoLegado "historicoDosagens" = some .vazio := by
    simp [getItem, armazenamentoLegado]
  have h2 : getItem armazenamentoLegado "dosageHistory" =
      some (.json [{ id := 7, campos := camposExemplo }]) := by
    simp [getItem, armazenamentoLegado]
  refine ⟨h1, h2, ?_⟩
  rw [carregarHistorico_legado _ (Or.inr h1), h2]
  simp [itemTruthy, jsonParse]

end SafeDose
